import Mathlib

/-
Verification development for the docker-map orchestrator core
(dockermap/map/client.py). Each section embeds one part of the source as
executable Lean definitions and proves the spec claims about it.
-/

set_option autoImplicit false

namespace DockerMap

/-! ## Status Extractor (client.py lines 16-17 and 73-92) -/

/-- Container status classification values produced by the status extractor in
`MappingDockerClient._get_status`: Python `False` (container not created),
`True` (running), an integer exit code, or `None` (unparseable status text). -/
inductive CStatus where
  | notCreated
  | running
  | exited (code : Nat)
  | unparseable
deriving DecidableEq, Repr

/-- Strip a literal leading pattern from a character list, returning the
remainder when the pattern matches the front of the list. -/
def stripLead : List Char → List Char → Option (List Char)
  | [], s => some s
  | _ :: _, [] => none
  | p :: ps, c :: cs => if c = p then stripLead ps cs else none

/-- The literal part of EXITED_REGEX, the text Exited followed by a space and
an opening parenthesis. -/
def exitedHead : List Char := ['E', 'x', 'i', 't', 'e', 'd', ' ', '(']

/-- Numeric value denoted by a run of decimal digit characters. -/
def digitsToNat (ds : List Char) : Nat :=
  ds.foldl (fun a c => 10 * a + (c.toNat - 48)) 0

/-- Embeds `exited_pattern.match` from client.py: the regular expression
Exited \((\d+)\) anchored at the start of the string. The character class \d
is modelled as the ASCII digits that engine status strings use. The regex
backtracking on \d+\) is equivalent to taking the maximal digit run and
requiring a closing parenthesis right after it, since any shorter digit run is
followed by a digit, not a parenthesis. -/
def matchExited (s : List Char) : Option Nat :=
  match stripLead exitedHead s with
  | none => none
  | some rest =>
    let ds := rest.takeWhile Char.isDigit
    let rest2 := rest.dropWhile Char.isDigit
    if ds = [] then none
    else
      match rest2 with
      | ')' :: _ => some (digitsToNat ds)
      | _ => none

/-- Embeds `c_status.startswith('Up')` from client.py line 81. -/
def startsWithUp (s : List Char) : Bool :=
  (stripLead ['U', 'p'] s).isSome

/-- Embeds the status classification of one engine status string, the body of
the loop in `MappingDockerClient._get_status` (client.py lines 78-88): empty
string, then the Up prefix test, then the Exited pattern, otherwise None. -/
def classifyStatus (s : List Char) : CStatus :=
  if s = [] then CStatus.notCreated
  else if startsWithUp s then CStatus.running
  else
    match matchExited s with
    | some n => CStatus.exited n
    | none => CStatus.unparseable

/-- Association-list lookup, embedding Python dict lookup by key (first match;
the dicts built below keep keys unique). -/
def lookupS {α : Type} : List (String × α) → String → Option α
  | [], _ => none
  | (k, v) :: r, n => if k = n then some v else lookupS r n

/-- Association-list key update in place, embedding Python dict item
assignment: replace the value of an existing key, append a new key at the
end. -/
def setS {α : Type} : List (String × α) → String → α → List (String × α)
  | [], n, v => [(n, v)]
  | (k, w) :: r, n, v => if k = n then (n, v) :: r else (k, w) :: setS r n v

/-- One container record as returned by `client.containers(all=True)`: the
engine status string and the display names (each with the leading slash the
engine prepends). -/
structure ContainerRec where
  status : List Char
  names : List (List Char)
deriving DecidableEq, Repr

/-- One value of `self._maps`: the map name together with the engine-side
container listing its client would report. The container-map structure beyond
its name is not needed by the status extractor. -/
structure MapEntry where
  mapName : String
  containers : List ContainerRec
deriving DecidableEq, Repr

/-- Assoc-list set keyed by a character-list name, for the status dict. -/
def setC : List (List Char × CStatus) → List Char → CStatus → List (List Char × CStatus)
  | [], n, v => [(n, v)]
  | (k, w) :: r, n, v => if k = n then (n, v) :: r else (k, w) :: setC r n v

/-- Embeds `MappingDockerClient._get_status` (client.py lines 73-92): for every
map binding, classify every reported container status and record it under each
display name with the first character stripped; building a dict gives
last-writer-wins semantics. -/
def _get_status (maps : List MapEntry) : List (List Char × CStatus) :=
  maps.foldl
    (fun acc me =>
      me.containers.foldl
        (fun acc2 c =>
          c.names.foldl (fun acc3 n => setC acc3 (n.drop 1) (classifyStatus c.status)) acc2)
        acc)
    []

/-! ## Image Cache and client registry (client.py lines 60-71, 94-128, 311-315) -/

/-- The part of an engine client the image cache interacts with: the result of
`client.get_image_tags()`. The engine is an external collaborator and is
modelled as reporting a fixed tag listing. -/
structure ImgClient where
  engineTags : List (List Char)
deriving DecidableEq, Repr

/-- The orchestrator state relevant to the image cache and to client lookup:
`self._maps` (name to client), `self._image_tags` (the per-map tag cache) and
`self._default_map`. -/
structure OrchState where
  registry : List (String × ImgClient)
  imageTags : List (String × List (List Char))
  defaultMap : Option String
deriving DecidableEq, Repr

/-- Engine calls made by the image cache, recorded as a trace. `queryTags`
records one `client.get_image_tags()` round trip together with the `force`
argument of the `_get_image_tags` call that issued it; `importImage` records
one `client.import_image(image, tag)` call. -/
inductive ImgOp where
  | queryTags (mapName : String) (forced : Bool)
  | importImage (image : List Char) (tag : List Char)
deriving DecidableEq, Repr

/-- Embeds `MappingDockerClient._get_client` (client.py lines 102-110):
`self._maps.get(map_name)` followed by the ValueError on a missing entry
(modelled as `none`). A `None` map name never matches a registered name. -/
def _get_client (s : OrchState) (mapName : Option String) : Option ImgClient :=
  match mapName with
  | none => none
  | some n => lookupS s.registry n

/-- Embeds `MappingDockerClient._get_image_tags` (client.py lines 94-100):
return the cached entry unless `force` is set or the cache has no entry, in
which case query the engine client and store the result. Returns the tags, the
updated state and the engine-call trace; `none` models the ValueError of a
missing client. -/
def _get_image_tags (s : OrchState) (m : String) (force : Bool) :
    Option (List (List Char) × OrchState × List ImgOp) :=
  let tags0 := if force then none else lookupS s.imageTags m
  match tags0 with
  | some t => some (t, s, [])
  | none =>
    match _get_client s (some m) with
    | none => none
    | some cl =>
      some (cl.engineTags,
        { s with imageTags := setS s.imageTags m cl.engineTags },
        [ImgOp.queryTags m force])

/-- The literal tag latest. -/
def latestTag : List Char := ['l', 'a', 't', 'e', 's', 't']

/-- Embeds `image_name.partition(':')` as used in `_check_image`: the text
before the first colon and the text after it (empty when there is no colon,
matching the only uses of the partition result, which test the tag for
truthiness). -/
def splitColon : List Char → List Char × List Char
  | [] => ([], [])
  | c :: cs =>
    if c = ':' then ([], cs)
    else
      let p := splitColon cs
      (c :: p.1, p.2)

/-- Embeds the inner `_check_image` of `MappingDockerClient._ensure_images`
(client.py lines 113-122), faithfully including that `full_name` is the bare
base name whenever an explicit tag is present: returns whether an import
occurred and the import calls made. -/
def _check_image (mapImages : List (List Char)) (img : List Char) : Bool × List ImgOp :=
  let p := splitColon img
  let imageName := p.1
  let tag := p.2
  let fullName := if tag ≠ [] then imageName else imageName ++ ':' :: latestTag
  if fullName ∈ mapImages then (false, [])
  else (true, [ImgOp.importImage imageName (if tag = [] then latestTag else tag)])

/-- Embeds `MappingDockerClient._ensure_images` (client.py lines 112-128):
resolve the client, take the cached tag snapshot, check every requested image
against that snapshot (importing the missing ones), and force-refresh the
cache once at the end when any import happened. Returns the final state and
the engine-call trace; `none` models the ValueError of an unknown map. -/
def _ensure_images (s : OrchState) (m : String) (images : List (List Char)) :
    Option (OrchState × List ImgOp) :=
  match _get_client s (some m) with
  | none => none
  | some _ =>
    match _get_image_tags s m false with
    | none => none
    | some (mapImages, s1, t1) =>
      let results := images.map (_check_image mapImages)
      let importOps := results.foldr (fun r acc => r.2 ++ acc) []
      if results.any (fun r => r.1) then
        match _get_image_tags s1 m true with
        | none => none
        | some (_, s2, t2) => some (s2, t1 ++ importOps ++ t2)
      else some (s1, t1 ++ importOps)

/-- Embeds `MappingDockerClient.refresh_names` (client.py lines 311-315):
reset the image tag cache to an empty dict. -/
def refresh_names (s : OrchState) : OrchState :=
  { s with imageTags := [] }

/-- Trace predicate: the operation is an image import. -/
def isImport : ImgOp → Bool
  | ImgOp.importImage _ _ => true
  | _ => false

/-- Trace predicate: the operation is a forced tag query, that is a cache
refresh issued by `_get_image_tags` with `force=True`. -/
def isForcedQ : ImgOp → Bool
  | ImgOp.queryTags _ f => f
  | _ => false

/-! ## Action Executor (client.py lines 141-186) -/

/-- The closed set of recognized action kinds. The source tests membership in
the external constants `policy.ACTIONS_CREATE`, `ACTIONS_START`,
`ACTIONS_PREPARE`, `ACTIONS_STOP` and `ACTIONS_REMOVE`; the enum covers
exactly those five recognized kinds, so the trailing unrecognized-action
ValueError branch has no inhabitant in this embedding. -/
inductive ActionKind where
  | create
  | start
  | prepare
  | stop
  | remove
deriving DecidableEq, Repr

/-- A Python dict of keyword arguments, with string values. -/
abbrev Dict := List (String × String)

/-- A heap of dicts. Python dicts are mutable heap objects and the executor
aliases or copies them, so kwargs dicts live in a store addressed by
position. -/
abbrev Store := List Dict

/-- Read the dict at an address (missing addresses read as empty). -/
def storeGet : Store → Nat → Dict
  | [], _ => []
  | d :: _, 0 => d
  | _ :: ds, n + 1 => storeGet ds n

/-- Overwrite the dict at an address. -/
def storeSet : Store → Nat → Dict → Store
  | [], _, _ => []
  | _ :: ds, 0, d => d :: ds
  | e :: ds, n + 1, d => e :: storeSet ds n d

/-- Python `d[k] = v` on a kwargs dict. -/
def dset (d : Dict) (k : String) (v : String) : Dict :=
  setS d k v

/-- Python `d.get(k)` on a kwargs dict. -/
def dget (d : Dict) (k : String) : Option String :=
  lookupS d k

/-- Python `d.update(c)`: assign every entry of `c` into `d` in order. -/
def dupdate (d : Dict) (c : Dict) : Dict :=
  c.foldl (fun a p => dset a p.1 p.2) d

/-- Python `d.pop(k)` key removal part: drop the entry with the given key. -/
def derase : Dict → String → Dict
  | [], _ => []
  | p :: ps, k => if p.1 = k then derase ps k else p :: derase ps k

/-- One element of the action list consumed by `run_action_list`: the
`(action, map_name, container, kwargs)` tuple produced by the policy, with
`kwargs` either `None` or a reference to a stored dict. -/
structure ExAction where
  kind : ActionKind
  mapName : String
  container : String
  kwargsRef : Option Nat
deriving DecidableEq, Repr

/-- The engine-client behaviour `run_action_list` can observe: which map names
are registered, and for `client.stop` and `client.remove_container` whether
the call raises an APIError and with which HTTP status code (`none` means the
call succeeds). All other engine calls succeed. -/
structure ExecEnv where
  knownMaps : List String
  stopCode : String → Option Nat
  removeCode : String → Option Nat

/-- Engine calls and log writes made by `run_action_list`, as a trace.
`createContainer` also records the yielded creation result. -/
inductive ExOp where
  | ensureImages (mapName : String) (image : String)
  | createContainer (image : String) (container : String) (kwargs : Dict)
  | startContainer (container : String) (kwargs : Dict)
  | waitContainer (container : String)
  | adjustPermissions (container : String) (image : String) (kwargs : Dict)
  | stopContainer (container : String) (kwargs : Dict)
  | removeContainer (container : String) (kwargs : Dict)
  | logError (container : String) (code : Nat)
deriving DecidableEq, Repr

/-- Exceptions `run_action_list` can raise: the unknown-map ValueError from
`_get_client`, the KeyError of popping a missing `image` key, and an APIError
re-raised under `raise_on_error`. -/
inductive ExErr where
  | unknownMap (m : String)
  | keyError (k : String)
  | apiError (code : Nat)
deriving DecidableEq, Repr

/-- Python truthiness of the `apply_kwargs.get(action)` result: a present,
non-empty dict. -/
def truthyD : Option Dict → Bool
  | none => false
  | some c => ¬ c = []

/-- Embeds `a_kwargs = kwargs or {}` (client.py line 156): alias the action's
own dict when it is truthy, otherwise allocate a fresh empty dict. Returns the
store and the address of `a_kwargs`. -/
def aliasOrFresh (st : Store) (a : ExAction) : Store × Nat :=
  match a.kwargsRef with
  | some r => if ¬ storeGet st r = [] then (st, r) else (st ++ [[]], st.length)
  | none => (st ++ [[]], st.length)

/-- Embeds the kwargs merge of `run_action_list` (client.py lines 151-156):
when the kind-specific override is truthy, copy the action's kwargs (or start
from an empty dict) and update with the override, allocating the result as a
new dict; otherwise `a_kwargs = kwargs or {}`. -/
def mergeKwargs (st : Store) (a : ExAction) (cKw : Option Dict) : Store × Nat :=
  if truthyD cKw then
    let c := cKw.getD []
    let base :=
      match a.kwargsRef with
      | some r => if ¬ storeGet st r = [] then storeGet st r else []
      | none => []
    (st ++ [dupdate base c], st.length)
  else aliasOrFresh st a

/-- Embeds one iteration of the loop in `MappingDockerClient.run_action_list`
(client.py lines 149-186): resolve the client, merge kwargs, then dispatch on
the action kind, including the differentiated stop/remove APIError handling.
Returns the store, the trace of this action, and the exception it raises, if
any. -/
def runStep (env : ExecEnv) (applyKw : ActionKind → Option Dict) (raiseOnError : Bool)
    (st : Store) (a : ExAction) : Store × List ExOp × Option ExErr :=
  if a.mapName ∈ env.knownMaps then
    let m := mergeKwargs st a (applyKw a.kind)
    let st1 := m.1
    let aRef := m.2
    match a.kind with
    | ActionKind.create =>
      match dget (storeGet st1 aRef) "image" with
      | none => (st1, [], some (ExErr.keyError "image"))
      | some image =>
        let st2 := storeSet st1 aRef (derase (storeGet st1 aRef) "image")
        (st2, [ExOp.ensureImages a.mapName image,
               ExOp.createContainer image a.container (storeGet st2 aRef)], none)
    | ActionKind.start =>
      (st1, [ExOp.startContainer a.container (storeGet st1 aRef)], none)
    | ActionKind.prepare =>
      match dget (storeGet st1 aRef) "image" with
      | none => (st1, [], some (ExErr.keyError "image"))
      | some image =>
        let st2 := storeSet st1 aRef (derase (storeGet st1 aRef) "image")
        (st2, [ExOp.waitContainer a.container,
               ExOp.adjustPermissions a.container image (storeGet st2 aRef)], none)
    | ActionKind.stop =>
      match env.stopCode a.container with
      | none => (st1, [ExOp.stopContainer a.container (storeGet st1 aRef)], none)
      | some code =>
        if code = 404 then
          (st1, [ExOp.stopContainer a.container (storeGet st1 aRef)], none)
        else
          (st1, [ExOp.stopContainer a.container (storeGet st1 aRef),
                 ExOp.logError a.container code],
           if raiseOnError then some (ExErr.apiError code) else none)
    | ActionKind.remove =>
      match env.removeCode a.container with
      | none => (st1, [ExOp.removeContainer a.container (storeGet st1 aRef)], none)
      | some code =>
        if code = 404 then
          (st1, [ExOp.removeContainer a.container (storeGet st1 aRef)], none)
        else
          (st1, [ExOp.removeContainer a.container (storeGet st1 aRef),
                 ExOp.logError a.container code],
           if raiseOnError then some (ExErr.apiError code) else none)
  else (st, [], some (ExErr.unknownMap a.mapName))

/-- Embeds the `run_action_list` loop (client.py lines 149-186): execute the
actions in order, stopping at the first raised exception; the generator is
modelled as the concatenated trace (create results are recorded inside
`createContainer` trace entries). -/
def run_action_list (env : ExecEnv) (applyKw : ActionKind → Option Dict)
    (raiseOnError : Bool) : Store → List ExAction → Store × List ExOp × Option ExErr
  | st, [] => (st, [], none)
  | st, a :: rest =>
    let r := runStep env applyKw raiseOnError st a
    match r.2.2 with
    | some e => (r.1, r.2.1, some e)
    | none =>
      let rr := run_action_list env applyKw raiseOnError r.1 rest
      (rr.1, r.2.1 ++ rr.2.1, rr.2.2)

/-- The stop or remove error code the environment assigns to an action of one
of the two teardown kinds. -/
def errCodeOf (env : ExecEnv) (a : ExAction) : Option Nat :=
  match a.kind with
  | ActionKind.stop => env.stopCode a.container
  | ActionKind.remove => env.removeCode a.container
  | _ => none

/-! ## Permission Fixer (client.py lines 22-40) -/

/-- Engine calls made by the permission fixer, as a trace. Helper containers
are numbered by creation order within one `_adjust_permissions` call; the two
call sites always pass `entrypoint=None`, so the entrypoint argument is
omitted. `pLog` records a `client.push_log` informational message about the
setting being adjusted. -/
inductive POp where
  | pCreate (cid : Nat) (image : List Char) (command : List String) (user : String)
  | pStart (cid : Nat) (volumesFrom : List String)
  | pWait (cid : Nat)
  | pPushLogs (cid : Nat)
  | pRemove (cid : Nat)
  | pLog (container : String) (setting : String)
deriving DecidableEq, Repr

/-- Which engine calls of one helper-container run raise an error. -/
structure RunFail where
  createFail : Bool
  startFail : Bool
  waitFail : Bool
  logFail : Bool
  removeFail : Bool
deriving DecidableEq, Repr

/-- The helper-run with no engine failures. -/
def noFail : RunFail :=
  { createFail := false, startFail := false, waitFail := false,
    logFail := false, removeFail := false }

/-- Errors a helper-container run can raise, by the engine call that raised
them. -/
inductive PErr where
  | createErr
  | startErr
  | waitErr
  | logErr
  | removeErr
deriving DecidableEq, Repr

/-- Embeds `_run_and_dispose` (client.py lines 22-29): create the helper
container, then inside a try block start it, wait on it and push its logs
(each step skipped once an earlier one raised), and in the finally block
remove it; an exception raised by the removal replaces the pending one. A
failing create raises before the try block, so nothing else runs. -/
def _run_and_dispose (cid : Nat) (f : RunFail) (image : List Char)
    (command : List String) (user : String) (volumesFrom : List String) :
    List POp × Option PErr :=
  if f.createFail then ([POp.pCreate cid image command user], some PErr.createErr)
  else
    let tryPart : List POp × Option PErr :=
      if f.startFail then ([POp.pStart cid volumesFrom], some PErr.startErr)
      else if f.waitFail then
        ([POp.pStart cid volumesFrom, POp.pWait cid], some PErr.waitErr)
      else if f.logFail then
        ([POp.pStart cid volumesFrom, POp.pWait cid, POp.pPushLogs cid], some PErr.logErr)
      else ([POp.pStart cid volumesFrom, POp.pWait cid, POp.pPushLogs cid], none)
    (POp.pCreate cid image command user :: tryPart.1 ++ [POp.pRemove cid],
     if f.removeFail then some PErr.removeErr else tryPart.2)

/-- Modelled from the spec: `get_user_group` comes from the shortcuts module,
which is not part of the shown source; the spec only states that the chown
command receives the user, optionally extended with a group, as its argument.
The formatting is external, so it is kept as the identity on the user text. -/
def get_user_group (u : String) : String := u

/-- Embeds `_adjust_permissions` (client.py lines 32-40): a no-op when both
`user` and `permissions` are falsy (modelled as `none`); otherwise one
chown helper run when `user` is set, then one chmod helper run when
`permissions` is set, each preceded by a `push_log` message. An exception in
the first run propagates, so the second run is skipped. The failure behaviour
of the runs is given by `f1` and `f2`. -/
def _adjust_permissions (f1 f2 : RunFail) (image : List Char) (containerName : String)
    (path : String) (user permissions : Option String) : List POp × Option PErr :=
  if user = none ∧ permissions = none then ([], none)
  else
    match user with
    | some u =>
      let r1 := _run_and_dispose 0 f1 image
        ["chown", "-R", get_user_group u, path] "root" [containerName]
      let t1 := POp.pLog containerName "user" :: r1.1
      match r1.2 with
      | some e => (t1, some e)
      | none =>
        match permissions with
        | some p =>
          let r2 := _run_and_dispose 1 f2 image
            ["chmod", "-R", p, path] "root" [containerName]
          (t1 ++ POp.pLog containerName "permissions" :: r2.1, r2.2)
        | none => (t1, none)
    | none =>
      match permissions with
      | some p =>
        let r2 := _run_and_dispose 1 f2 image
          ["chmod", "-R", p, path] "root" [containerName]
        (POp.pLog containerName "permissions" :: r2.1, r2.2)
      | none => ([], none)

/-- Count of helper-container creations in a permission-fixer trace. -/
def countCreates (t : List POp) : Nat :=
  t.countP fun op =>
    match op with
    | POp.pCreate _ _ _ _ => true
    | _ => false

/-! ## Policy construction (client.py lines 130-139) -/

/-- The policy object as far as the orchestrator observes it: an identity
(so that object identity across calls is expressible), the container maps the
constructor received, and the `status` attribute the orchestrator assigns. -/
structure Policy where
  uid : Nat
  mapsUsed : List String
  status : List (List Char × CStatus)
deriving DecidableEq, Repr

/-- The orchestrator fields behind `get_policy`: `self._policy` and a
fresh-identity counter standing for allocation of new policy objects. -/
structure PolState where
  policyVal : Option Policy
  nextUid : Nat
deriving DecidableEq, Repr

/-- Embeds `MappingDockerClient.get_policy` (client.py lines 130-139):
construct the policy from all registered container maps only when
`self._policy` is unset (a policy instance is always truthy), then assign a
freshly extracted status mapping to its `status` attribute and return it. The
engine view at call time is the `engine` argument. -/
def get_policy (engine : List MapEntry) (s : PolState) : Policy × PolState :=
  match s.policyVal with
  | some p =>
    let p2 := { p with status := _get_status engine }
    (p2, { s with policyVal := some p2 })
  | none =>
    let p : Policy :=
      { uid := s.nextUid, mapsUsed := engine.map (fun me => me.mapName),
        status := _get_status engine }
    (p, { policyVal := some p, nextUid := s.nextUid + 1 })

/-! ## Persistent container listing (client.py lines 317-341) -/

/-- One container configuration as the listing reads it: the attached-container
aliases, the persistent flag and the declared instance names. -/
structure ContainerConfig where
  attaches : List String
  persistent : Bool
  instances : List String
deriving DecidableEq, Repr

/-- One container map: its name and its (container name, configuration)
pairs. -/
structure CMap where
  name : String
  containers : List (String × ContainerConfig)
deriving DecidableEq, Repr

/-- Embeds the per-configuration body of `_container_names` inside
`list_persistent_containers` (client.py lines 329-337): every attached alias
is yielded; a persistent configuration additionally yields one name per
declared instance, or a single default-instance name when none are declared.
The naming convention `cname` is the external policy class method. -/
def configNames (cname : String → String → Option String → String)
    (mapName : String) (container : String) (cfg : ContainerConfig) : List String :=
  cfg.attaches.map (fun ac => cname mapName ac none) ++
    (if cfg.persistent then
      if cfg.instances = [] then [cname mapName container none]
      else cfg.instances.map (fun ci => cname mapName container (some ci))
    else [])

/-- The names yielded for one container map. -/
def mapPersistentNames (cname : String → String → Option String → String)
    (m : CMap) : List String :=
  m.containers.foldr (fun cc acc => configNames cname m.name cc.1 cc.2 ++ acc) []

/-- Embeds `MappingDockerClient.list_persistent_containers` (client.py lines
317-341): with a map name, list that single map (a missing name is the
KeyError of `self._maps[map_name]`, modelled as `none`); without one, list
every registered map. -/
def list_persistent_containers (cname : String → String → Option String → String)
    (registry : List CMap) (mapName : Option String) : Option (List String) :=
  match mapName with
  | some n =>
    match registry.find? (fun m => m.name = n) with
    | none => none
    | some m => some (mapPersistentNames cname m)
  | none => some (registry.foldr (fun m acc => mapPersistentNames cname m ++ acc) [])

/-! ## wait and wait_and_remove (client.py lines 273-309) -/

/-- Engine calls made by `wait` and `wait_and_remove`, as a trace. -/
inductive WOp where
  | wWait (name : String)
  | wPushLogs (name : String)
  | wRemove (name : String)
deriving DecidableEq, Repr

/-- The error `wait` and `wait_and_remove` can raise: the unknown-map
ValueError of `_get_client`. -/
inductive WErr where
  | unknownMap
deriving DecidableEq, Repr

/-- Embeds `map_name or self._default_map`: the explicit map name when given,
otherwise the configured default. -/
def orDefault (s : OrchState) (mapName : Option String) : Option String :=
  match mapName with
  | some n => some n
  | none => s.defaultMap

/-- Embeds `MappingDockerClient.wait` (client.py lines 273-290): resolve the
client with the raw `map_name` argument, resolve the container name through
the policy class naming convention with `map_name or self._default_map`, then
wait and optionally push the container logs. -/
def wait (cname : Option String → String → Option String → String) (s : OrchState)
    (container : String) (inst : Option String) (mapName : Option String)
    (log : Bool) : Except WErr (List WOp) :=
  match _get_client s mapName with
  | none => Except.error WErr.unknownMap
  | some _ =>
    let cn := cname (orDefault s mapName) container inst
    Except.ok (WOp.wWait cn :: (if log then [WOp.wPushLogs cn] else []))

/-- Embeds `MappingDockerClient.wait_and_remove` (client.py lines 292-309):
resolve the client with the raw `map_name` argument, resolve the container
name with the defaulted map name, delegate to `wait`, then remove the
container. -/
def wait_and_remove (cname : Option String → String → Option String → String)
    (s : OrchState) (container : String) (inst : Option String)
    (mapName : Option String) (log : Bool) : Except WErr (List WOp) :=
  match _get_client s mapName with
  | none => Except.error WErr.unknownMap
  | some _ =>
    let cn := cname (orDefault s mapName) container inst
    match wait cname s container inst mapName log with
    | Except.error e => Except.error e
    | Except.ok ops => Except.ok (ops ++ [WOp.wRemove cn])

/-- Concrete orchestrator state exercising `_ensure_images`: one map whose
engine knows the tagged image foo:bar, with the cache for that map already
populated with the same listing. -/
def c1State : OrchState :=
  { registry := [("m", { engineTags := ["foo:bar".toList] })],
    imageTags := [("m", ["foo:bar".toList])],
    defaultMap := none }

/-- Executor environment over one map in which stop and remove always
succeed. -/
def quietEnv : ExecEnv :=
  { knownMaps := ["m"], stopCode := fun _ => none, removeCode := fun _ => none }

/-! ## Theorems -/

theorem stripLead_self_append (p t : List Char) : stripLead p (p ++ t) = some t := by
  induction p with
  | nil => rfl
  | cons c ps ih => simp [stripLead, ih]

theorem takeWhile_digits (ds tail : List Char)
    (h : ∀ c ∈ ds, Char.isDigit c = true) :
    (ds ++ ')' :: tail).takeWhile Char.isDigit = ds ∧
      (ds ++ ')' :: tail).dropWhile Char.isDigit = ')' :: tail := by
  induction ds with
  | nil =>
    have hp : Char.isDigit ')' = false := by decide
    simp [List.takeWhile_cons, List.dropWhile_cons, hp]
  | cons c cs ih =>
    have hc : Char.isDigit c = true := h c (by simp)
    have hcs := ih (fun x hx => h x (by simp [hx]))
    simp [List.takeWhile_cons, List.dropWhile_cons, hc, hcs.1, hcs.2]

theorem matchExited_exact (ds tail : List Char) (hne : ds ≠ [])
    (h : ∀ c ∈ ds, Char.isDigit c = true) :
    matchExited (exitedHead ++ ds ++ ')' :: tail) = some (digitsToNat ds) := by
  have hassoc : exitedHead ++ ds ++ ')' :: tail = exitedHead ++ (ds ++ ')' :: tail) := by
    simp [List.append_assoc]
  rw [matchExited, hassoc, stripLead_self_append]
  simp [(takeWhile_digits ds tail h).1, (takeWhile_digits ds tail h).2, hne]

theorem startsWithUp_exited (rest : List Char) :
    startsWithUp (exitedHead ++ rest) = false := by
  simp [startsWithUp, exitedHead, stripLead]

/-- Claim C4: status classification is a pure function of the engine status
string: the empty string maps to the not-created value, any string starting
with Up maps to running, any string beginning with the pattern Exited
followed by a parenthesized integer maps to that exit code (in particular the
strings for codes 137 and 0), and any other string maps to the unparseable
value. -/
theorem status_classification_spec :
    classifyStatus [] = CStatus.notCreated
      ∧ (∀ s, startsWithUp s = true → classifyStatus s = CStatus.running)
      ∧ (∀ ds tail, ds ≠ [] → (∀ c ∈ ds, Char.isDigit c = true) →
          classifyStatus (exitedHead ++ ds ++ ')' :: tail) =
            CStatus.exited (digitsToNat ds))
      ∧ classifyStatus ("Exited (137)".toList) = CStatus.exited 137
      ∧ classifyStatus ("Exited (0)".toList) = CStatus.exited 0
      ∧ (∀ s, s ≠ [] → startsWithUp s = false → matchExited s = none →
          classifyStatus s = CStatus.unparseable) := by
  refine ⟨rfl, ?_, ?_, by decide, by decide, ?_⟩
  · intro s hs
    cases s with
    | nil => simp [startsWithUp, stripLead] at hs
    | cons c cs => simp [classifyStatus, hs]
  · intro ds tail hne h
    have h1 : exitedHead ++ ds ++ ')' :: tail ≠ [] := by simp [exitedHead]
    have h2 : startsWithUp (exitedHead ++ (ds ++ ')' :: tail)) = false :=
      startsWithUp_exited (ds ++ ')' :: tail)
    have hm : matchExited (exitedHead ++ (ds ++ ')' :: tail)) = some (digitsToNat ds) := by
      rw [← List.append_assoc]
      exact matchExited_exact ds tail hne h
    simp [classifyStatus, h1, h2, hm]
  · intro s h1 h2 h3
    simp [classifyStatus, h1, h2, h3]

/-- Witness for C4 at concrete inputs. -/
theorem status_classification_spec_witness :
    classifyStatus ("Up 3 seconds".toList) = CStatus.running
      ∧ classifyStatus (exitedHead ++ ['4', '2'] ++ ')' :: []) =
          CStatus.exited (digitsToNat ['4', '2'])
      ∧ classifyStatus ("Restarting".toList) = CStatus.unparseable :=
  ⟨status_classification_spec.2.1 _ (by decide),
   status_classification_spec.2.2.1 ['4', '2'] [] (by decide) (by decide),
   status_classification_spec.2.2.2.2.2 _ (by decide) (by decide) (by decide)⟩

/-- Claim C1, evaluated at the failing input: with the fully qualified
reference foo:bar present in the cached image-tag set for map m,
`_ensure_images` nevertheless invokes an image import for that reference,
because `_check_image` compares the bare base name foo (its `full_name` when
an explicit tag is present) against the cache instead of the fully qualified
name. -/
theorem ensure_images_imports_despite_cached_full_ref :
    lookupS c1State.imageTags "m" = some ["foo:bar".toList]
      ∧ _ensure_images c1State "m" ["foo:bar".toList] =
          some (c1State,
            [ImgOp.importImage "foo".toList "bar".toList,
             ImgOp.queryTags "m" true]) := by
  constructor
  · rfl
  · decide

/-- Claim C10: `refresh_names` unconditionally empties the whole image-tag
cache, and a subsequent `_get_image_tags` call for any registered map performs
a fresh engine query and re-populates that map's cache entry with the engine
result. -/
theorem refresh_names_clears_cache :
    ∀ (s : OrchState) (m : String) (cl : ImgClient),
      _get_client s (some m) = some cl →
      (refresh_names s).imageTags = []
        ∧ _get_image_tags (refresh_names s) m false =
            some (cl.engineTags,
              { s with imageTags := [(m, cl.engineTags)] },
              [ImgOp.queryTags m false]) := by
  intro s m cl h
  have hg : _get_client (refresh_names s) (some m) = some cl := h
  refine ⟨rfl, ?_⟩
  show (match (if false then none else lookupS (refresh_names s).imageTags m) with
    | some t => some (t, refresh_names s, ([] : List ImgOp))
    | none =>
      match _get_client (refresh_names s) (some m) with
      | none => none
      | some cl2 =>
        some (cl2.engineTags,
          { refresh_names s with
              imageTags := setS (refresh_names s).imageTags m cl2.engineTags },
          [ImgOp.queryTags m false])) =
    some (cl.engineTags, { s with imageTags := [(m, cl.engineTags)] },
      [ImgOp.queryTags m false])
  rw [show (if false then none else lookupS (refresh_names s).imageTags m) =
      (none : Option (List (List Char))) from rfl]
  rw [hg]
  rfl

/-- Witness for C10 at a concrete state. -/
theorem refresh_names_clears_cache_witness :
    (refresh_names c1State).imageTags = []
      ∧ _get_image_tags (refresh_names c1State) "m" false =
          some (["foo:bar".toList],
            { c1State with imageTags := [("m", ["foo:bar".toList])] },
            [ImgOp.queryTags "m" false]) :=
  refresh_names_clears_cache c1State "m" { engineTags := ["foo:bar".toList] } rfl

/-- Claim C5: when the map name argument is omitted, `wait` and
`wait_and_remove` look the engine client up with the raw `None` value rather
than the configured default map name, so both calls raise the unknown-map
configuration error even when a default map is set. -/
theorem wait_unknown_map_with_default :
    ∀ (cname : Option String → String → Option String → String) (s : OrchState)
      (container : String) (inst : Option String) (log : Bool) (d : String),
      s.defaultMap = some d →
      wait cname s container inst none log = Except.error WErr.unknownMap
        ∧ wait_and_remove cname s container inst none log =
            Except.error WErr.unknownMap := by
  intro cname s container inst log d _
  exact ⟨rfl, rfl⟩

/-- Witness for C5 at a concrete state with a registered default map. -/
theorem wait_unknown_map_with_default_witness :
    wait (fun _ c _ => c)
        { registry := [("m", { engineTags := [] })], imageTags := [],
          defaultMap := some "m" } "web" none none true =
      Except.error WErr.unknownMap
      ∧ wait_and_remove (fun _ c _ => c)
          { registry := [("m", { engineTags := [] })], imageTags := [],
            defaultMap := some "m" } "web" none none true =
        Except.error WErr.unknownMap :=
  wait_unknown_map_with_default (fun _ c _ => c)
    { registry := [("m", { engineTags := [] })], imageTags := [],
      defaultMap := some "m" } "web" none true "m" rfl

/-- Claim C8: starting from a state with no policy, the first `get_policy`
call constructs the policy from all registered container maps, every later
call returns the same policy object (same identity, same construction-time
maps, and the allocation counter is only advanced once), and every call
reassigns the policy's status attribute to the freshly extracted status
mapping of the engine state seen at that call. -/
theorem get_policy_single_instance_fresh_status :
    ∀ (e1 e2 : List MapEntry) (s : PolState),
      s.policyVal = none →
      (get_policy e1 s).1.uid = s.nextUid
        ∧ (get_policy e1 s).1.mapsUsed = e1.map (fun me => me.mapName)
        ∧ (get_policy e1 s).1.status = _get_status e1
        ∧ (get_policy e1 s).2.nextUid = s.nextUid + 1
        ∧ (get_policy e2 (get_policy e1 s).2).1.uid = s.nextUid
        ∧ (get_policy e2 (get_policy e1 s).2).1.mapsUsed =
            e1.map (fun me => me.mapName)
        ∧ (get_policy e2 (get_policy e1 s).2).1.status = _get_status e2
        ∧ (get_policy e2 (get_policy e1 s).2).2.nextUid = s.nextUid + 1 := by
  intro e1 e2 s h
  simp [get_policy, h]

/-- Witness for C8 at concrete engine states. -/
theorem get_policy_single_instance_fresh_status_witness :
    (get_policy [MapEntry.mk "m" []] (PolState.mk none 0)).1.uid = 0
      ∧ (get_policy [] (get_policy [MapEntry.mk "m" []] (PolState.mk none 0)).2).1.uid = 0
      ∧ (get_policy [] (get_policy [MapEntry.mk "m" []] (PolState.mk none 0)).2).2.nextUid = 1 :=
  ⟨(get_policy_single_instance_fresh_status [MapEntry.mk "m" []] [] (PolState.mk none 0) rfl).1,
   (get_policy_single_instance_fresh_status [MapEntry.mk "m" []] [] (PolState.mk none 0) rfl).2.2.2.2.1,
   (get_policy_single_instance_fresh_status [MapEntry.mk "m" []] [] (PolState.mk none 0) rfl).2.2.2.2.2.2.2⟩

/-- Claim C9: `list_persistent_containers` yields one engine-facing name per
attached alias of every configuration, plus, for persistent configurations,
one name per declared instance or a single default-instance name when none
are declared; a map with one attached alias and one persistent container with
two named instances yields exactly three names, and a non-persistent
configuration without attachments yields none. -/
theorem list_persistent_containers_counts :
    (∀ (cname : String → String → Option String → String) (mn c : String)
        (cfg : ContainerConfig),
      (configNames cname mn c cfg).length =
        cfg.attaches.length +
          (if cfg.persistent then
            if cfg.instances = [] then 1 else cfg.instances.length
          else 0))
      ∧ (∀ cname, Option.map List.length
          (list_persistent_containers cname
            [{ name := "m1",
               containers := [("web",
                 { attaches := ["web.vol"], persistent := true,
                   instances := ["i1", "i2"] })] }]
            (some "m1")) = some 3)
      ∧ (∀ (cname : String → String → Option String → String) (mn c : String)
          (inst : List String),
        configNames cname mn c
          { attaches := [], persistent := false, instances := inst } = []) := by
  refine ⟨?_, ?_, ?_⟩
  · intro cname mn c cfg
    rcases cfg with ⟨att, pers, insts⟩
    cases pers <;> cases insts <;> simp [configNames]
  · intro cname
    rfl
  · intro cname mn c inst
    simp [configNames]

theorem run_and_dispose_getLast (cid : Nat) (f : RunFail) (image : List Char)
    (command : List String) (user : String) (volumesFrom : List String)
    (h : f.createFail = false) :
    ((_run_and_dispose cid f image command user volumesFrom).1).getLast? =
      some (POp.pRemove cid) := by
  unfold _run_and_dispose
  rw [h]
  simp only [Bool.false_eq_true, if_false, ← List.cons_append, List.getLast?_concat]

/-- Claim C6: `_adjust_permissions` is a no-op when both user and permissions
are unset; with only the user set it issues exactly one helper run whose
command is a recursive chown, with only permissions set exactly one recursive
chmod run, and with both set the chown run followed by the chmod run; and in
every helper run whose creation succeeds, the helper container removal is the
final engine call of that run, whatever the outcome of the start, wait and
log steps. -/
theorem adjust_permissions_runs_and_cleanup :
    (∀ (f1 f2 : RunFail) (image : List Char) (c path : String),
      _adjust_permissions f1 f2 image c path none none = ([], none))
      ∧ (∀ (image : List Char) (c path u : String),
          (_adjust_permissions noFail noFail image c path (some u) none).1 =
            [POp.pLog c "user",
             POp.pCreate 0 image ["chown", "-R", get_user_group u, path] "root",
             POp.pStart 0 [c], POp.pWait 0, POp.pPushLogs 0, POp.pRemove 0]
            ∧ countCreates
                (_adjust_permissions noFail noFail image c path (some u) none).1 = 1)
      ∧ (∀ (image : List Char) (c path p : String),
          (_adjust_permissions noFail noFail image c path none (some p)).1 =
            [POp.pLog c "permissions",
             POp.pCreate 1 image ["chmod", "-R", p, path] "root",
             POp.pStart 1 [c], POp.pWait 1, POp.pPushLogs 1, POp.pRemove 1]
            ∧ countCreates
                (_adjust_permissions noFail noFail image c path none (some p)).1 = 1)
      ∧ (∀ (image : List Char) (c path u p : String),
          (_adjust_permissions noFail noFail image c path (some u) (some p)).1 =
            [POp.pLog c "user",
             POp.pCreate 0 image ["chown", "-R", get_user_group u, path] "root",
             POp.pStart 0 [c], POp.pWait 0, POp.pPushLogs 0, POp.pRemove 0,
             POp.pLog c "permissions",
             POp.pCreate 1 image ["chmod", "-R", p, path] "root",
             POp.pStart 1 [c], POp.pWait 1, POp.pPushLogs 1, POp.pRemove 1]
            ∧ countCreates
                (_adjust_permissions noFail noFail image c path (some u) (some p)).1 = 2)
      ∧ (∀ (cid : Nat) (f : RunFail) (image : List Char) (command : List String)
            (user : String) (volumesFrom : List String),
          f.createFail = false →
          ((_run_and_dispose cid f image command user volumesFrom).1).getLast? =
            some (POp.pRemove cid)) := by
  refine ⟨?_, ?_, ?_, ?_, ?_⟩
  · intro f1 f2 image c path
    rfl
  · intro image c path u
    exact ⟨rfl, rfl⟩
  · intro image c path p
    exact ⟨rfl, rfl⟩
  · intro image c path u p
    exact ⟨rfl, rfl⟩
  · intro cid f image command user volumesFrom h
    exact run_and_dispose_getLast cid f image command user volumesFrom h

/-- Witness for C6: the helper container removal is still the last engine call
when the wait step fails. -/
theorem adjust_permissions_runs_and_cleanup_witness :
    ((_run_and_dispose 0
        { createFail := false, startFail := false, waitFail := true,
          logFail := false, removeFail := false }
        ['i'] ["chown", "-R", "u", "/p"] "root" ["c"]).1).getLast? =
      some (POp.pRemove 0) :=
  adjust_permissions_runs_and_cleanup.2.2.2.2 0
    { createFail := false, startFail := false, waitFail := true,
      logFail := false, removeFail := false }
    ['i'] ["chown", "-R", "u", "/p"] "root" ["c"] rfl

theorem storeGet_append_left (st l : Store) (r : Nat) (h : r < st.length) :
    storeGet (st ++ l) r = storeGet st r := by
  induction st generalizing r with
  | nil => exact absurd h (by simp)
  | cons d ds ih =>
    cases r with
    | zero => rfl
    | succ n => exact ih n (by simp [List.length_cons] at h; omega)

theorem storeGet_append_self (st : Store) (d : Dict) :
    storeGet (st ++ [d]) st.length = d := by
  induction st with
  | nil => rfl
  | cons e es ih =>
    show storeGet (es ++ [d]) es.length = d
    exact ih

theorem storeSet_append_length (st : Store) (x d : Dict) :
    storeSet (st ++ [x]) st.length d = st ++ [d] := by
  induction st with
  | nil => rfl
  | cons e es ih =>
    show e :: storeSet (es ++ [x]) es.length d = e :: (es ++ [d])
    rw [ih]

theorem storeGet_len_le (st : Store) (r : Nat) (h : st.length ≤ r) :
    storeGet st r = [] := by
  induction st generalizing r with
  | nil => cases r <;> rfl
  | cons d ds ih =>
    cases r with
    | zero => simp at h
    | succ n => exact ih n (by simp [List.length_cons] at h; omega)

theorem storeGet_storeSet_self (st : Store) (r : Nat) (d : Dict) (h : r < st.length) :
    storeGet (storeSet st r d) r = d := by
  induction st generalizing r with
  | nil => exact absurd h (by simp)
  | cons e es ih =>
    cases r with
    | zero => rfl
    | succ n => exact ih n (by simp [List.length_cons] at h; omega)

theorem dget_derase_self (d : Dict) (k : String) : dget (derase d k) k = none := by
  induction d with
  | nil => rfl
  | cons p ps ih =>
    by_cases h : p.1 = k
    · simpa [derase, h] using ih
    · simpa [derase, h, dget, lookupS] using ih

theorem dget_dset_self (d : Dict) (k v : String) : dget (dset d k v) k = some v := by
  induction d with
  | nil => simp [dset, setS, dget, lookupS]
  | cons p ps ih =>
    obtain ⟨k0, w⟩ := p
    by_cases h : k0 = k
    · simp [dset, setS, dget, lookupS, h]
    · simpa [dset, setS, dget, lookupS, h] using ih

theorem dget_dset_ne (d : Dict) (k v k2 : String) (h : ¬ k = k2) :
    dget (dset d k v) k2 = dget d k2 := by
  induction d with
  | nil => simp [dset, setS, dget, lookupS, h]
  | cons p ps ih =>
    obtain ⟨k0, w⟩ := p
    by_cases h0 : k0 = k
    · subst h0
      simp [dset, setS, dget, lookupS, h]
    · by_cases h2 : k0 = k2
      · have h2s : ¬ k2 = k := fun hh => h hh.symm
        simp [dset, setS, dget, lookupS, h0, h2, h2s]
      · simpa [dset, setS, dget, lookupS, h0, h2] using ih

theorem dget_dupdate_notin (c : Dict) (d : Dict) (k : String)
    (h : ∀ p ∈ c, ¬ p.1 = k) : dget (dupdate d c) k = dget d k := by
  induction c generalizing d with
  | nil => rfl
  | cons p ps ih =>
    rw [show dupdate d (p :: ps) = dupdate (dset d p.1 p.2) ps from rfl]
    rw [ih (dset d p.1 p.2) (fun q hq => h q (by simp [hq]))]
    exact dget_dset_ne d p.1 p.2 k (h p (by simp))

theorem dget_dupdate_some (c : Dict) (d : Dict) (k v : String)
    (hnd : (c.map Prod.fst).Nodup) (hv : dget c k = some v) :
    dget (dupdate d c) k = some v := by
  induction c generalizing d with
  | nil => exact absurd hv (by simp [dget, lookupS])
  | cons p ps ih =>
    obtain ⟨k0, w⟩ := p
    have hnd1 : (k0 :: ps.map Prod.fst).Nodup := hnd
    have hnd2 := List.nodup_cons.mp hnd1
    by_cases h : k0 = k
    · subst h
      have hw : w = v := by simpa [dget, lookupS] using hv
      subst hw
      have hnotin : ∀ q ∈ ps, ¬ q.1 = k0 := by
        intro q hq hqk
        exact hnd2.1 (hqk ▸ List.mem_map_of_mem Prod.fst hq)
      rw [show dupdate d ((k0, w) :: ps) = dupdate (dset d k0 w) ps from rfl]
      rw [dget_dupdate_notin ps (dset d k0 w) k0 hnotin]
      exact dget_dset_self d k0 w
    · have hv2 : dget ps k = some v := by simpa [dget, lookupS, h] using hv
      rw [show dupdate d ((k0, w) :: ps) = dupdate (dset d k0 w) ps from rfl]
      exact ih (dset d k0 w) hnd2.2 hv2

theorem mergeKwargs_truthy (st : Store) (a : ExAction) (cKw : Option Dict)
    (h : truthyD cKw = true) :
    mergeKwargs st a cKw =
      (st ++ [dupdate
        (match a.kwargsRef with
          | some r => if ¬ storeGet st r = [] then storeGet st r else []
          | none => []) (cKw.getD [])], st.length) := by
  unfold mergeKwargs
  rw [h]
  simp

theorem runStep_fresh_store (env : ExecEnv) (kfun : ActionKind → Option Dict)
    (roe : Bool) (st : Store) (k : ActionKind) (mn c : String) (kr : Option Nat)
    (D : Dict)
    (hmerge : mergeKwargs st (ExAction.mk k mn c kr) (kfun k) = (st ++ [D], st.length))
    (r : Nat) (hr : r < st.length) :
    storeGet (runStep env kfun roe st (ExAction.mk k mn c kr)).1 r = storeGet st r := by
  have hL : ∀ l, storeGet (st ++ l) r = storeGet st r :=
    fun l => storeGet_append_left st l r hr
  by_cases hm : mn ∈ env.knownMaps
  · cases k with
    | create =>
      cases himg : dget (storeGet (st ++ [D]) (List.length st)) "image" with
      | none => simp [runStep, hm, hmerge, himg, hL]
      | some img => simp [runStep, hm, hmerge, himg, storeSet_append_length, hL]
    | start => simp [runStep, hm, hmerge, hL]
    | prepare =>
      cases himg : dget (storeGet (st ++ [D]) (List.length st)) "image" with
      | none => simp [runStep, hm, hmerge, himg, hL]
      | some img => simp [runStep, hm, hmerge, himg, storeSet_append_length, hL]
    | stop =>
      cases hc : env.stopCode c with
      | none => simp [runStep, hm, hmerge, hc, hL]
      | some code =>
        by_cases h4 : code = 404 <;> simp [runStep, hm, hmerge, hc, h4, hL]
    | remove =>
      cases hc : env.removeCode c with
      | none => simp [runStep, hm, hmerge, hc, hL]
      | some code =>
        by_cases h4 : code = 404 <;> simp [runStep, hm, hmerge, hc, h4, hL]
  · simp [runStep, hm]

theorem runStep_pop_mutates (env : ExecEnv) (kfun : ActionKind → Option Dict)
    (roe : Bool) (st : Store) (k : ActionKind) (mn c : String) (r : Nat)
    (img : String)
    (hk : k = ActionKind.create ∨ k = ActionKind.prepare)
    (hm : mn ∈ env.knownMaps)
    (hfalsy : truthyD (kfun k) = false)
    (hne : ¬ storeGet st r = [])
    (himg : dget (storeGet st r) "image" = some img) :
    (runStep env kfun roe st (ExAction.mk k mn c (some r))).1 =
        storeSet st r (derase (storeGet st r) "image")
      ∧ dget (storeGet (runStep env kfun roe st (ExAction.mk k mn c (some r))).1 r)
          "image" = none := by
  have hrlt : r < st.length := by
    by_contra hge
    exact hne (storeGet_len_le st r (by omega))
  have hmerge : mergeKwargs st (ExAction.mk k mn c (some r)) (kfun k) = (st, r) := by
    simp [mergeKwargs, aliasOrFresh, hfalsy, hne]
  have h1 : (runStep env kfun roe st (ExAction.mk k mn c (some r))).1 =
      storeSet st r (derase (storeGet st r) "image") := by
    rcases hk with hk | hk <;> subst hk <;> simp [runStep, hm, hmerge, himg]
  refine ⟨h1, ?_⟩
  rw [h1, storeGet_storeSet_self st r _ hrlt]
  exact dget_derase_self (storeGet st r) "image"

/-- Claim C2, counterexample: a create action whose stored kwargs dict holds
the image key, executed with an empty kind-specific override (as the `create`
facade passes when the caller supplies no kwargs), has its stored kwargs dict
mutated by the executor: the image key is popped from it. -/
theorem run_action_list_mutates_stored_kwargs_cex :
    (run_action_list quietEnv (fun _ => some []) false
        [[("image", "img"), ("x", "1")]]
        [{ kind := ActionKind.create, mapName := "m", container := "c",
           kwargsRef := some 0 }]).1 = [[("x", "1")]]
      ∧ dget (storeGet (run_action_list quietEnv (fun _ => some []) false
          [[("image", "img"), ("x", "1")]]
          [{ kind := ActionKind.create, mapName := "m", container := "c",
             kwargsRef := some 0 }]).1 0) "image" = none := by
  constructor
  · rfl
  · rfl

/-- Claim C2, amended: when the caller's kind-specific override is truthy
(present and non-empty), the merge allocates a fresh mapping, override keys
win on conflict (for override maps without duplicate keys), and executing the
action leaves every previously stored kwargs mapping, in particular the
action's own, unchanged; when the override is absent or empty and the
action's stored kwargs are non-empty, the executor uses the stored mapping
itself and a create or prepare action removes its image key from it. -/
theorem run_action_list_kwargs_merge_amended :
    (∀ (st : Store) (a : ExAction) (cKw : Option Dict),
      truthyD cKw = true →
      (mergeKwargs st a cKw).2 = st.length
        ∧ ∀ r, r < st.length →
            storeGet (mergeKwargs st a cKw).1 r = storeGet st r)
      ∧ (∀ (st : Store) (a : ExAction) (c : Dict) (k v : String),
          (c.map Prod.fst).Nodup → dget c k = some v →
          dget (storeGet (mergeKwargs st a (some c)).1
            (mergeKwargs st a (some c)).2) k = some v)
      ∧ (∀ (env : ExecEnv) (kfun : ActionKind → Option Dict) (roe : Bool)
            (st : Store) (a : ExAction),
          truthyD (kfun a.kind) = true →
          ∀ r, r < st.length →
            storeGet (runStep env kfun roe st a).1 r = storeGet st r)
      ∧ (∀ (env : ExecEnv) (kfun : ActionKind → Option Dict) (roe : Bool)
            (st : Store) (a : ExAction) (r : Nat) (img : String),
          (a.kind = ActionKind.create ∨ a.kind = ActionKind.prepare) →
          a.mapName ∈ env.knownMaps →
          truthyD (kfun a.kind) = false →
          a.kwargsRef = some r →
          ¬ storeGet st r = [] →
          dget (storeGet st r) "image" = some img →
          (runStep env kfun roe st a).1 =
              storeSet st r (derase (storeGet st r) "image")
            ∧ dget (storeGet (runStep env kfun roe st a).1 r) "image" = none) := by
  refine ⟨?_, ?_, ?_, ?_⟩
  · intro st a cKw h
    rw [mergeKwargs_truthy st a cKw h]
    exact ⟨rfl, fun r hr => storeGet_append_left st _ r hr⟩
  · intro st a c k v hnd hv
    have hne : ¬ c = [] := by
      intro hc
      subst hc
      exact absurd hv (by simp [dget, lookupS])
    have ht : truthyD (some c) = true := by simp [truthyD, hne]
    rw [mergeKwargs_truthy st a (some c) ht]
    rw [storeGet_append_self]
    exact dget_dupdate_some c _ k v hnd hv
  · intro env kfun roe st a h r hr
    obtain ⟨k, mn, c, kr⟩ := a
    exact runStep_fresh_store env kfun roe st k mn c kr _
      (mergeKwargs_truthy st (ExAction.mk k mn c kr) (kfun k) h) r hr
  · intro env kfun roe st a r img hk hm hfalsy href hne himg
    obtain ⟨k, mn, c, kr⟩ := a
    have hkr : kr = some r := href
    subst hkr
    exact runStep_pop_mutates env kfun roe st k mn c r img hk hm hfalsy hne himg

/-- Witness for the amended C2 at concrete inputs: a truthy override wins and
leaves the stored dict alone; a falsy override makes create pop the stored
image key. -/
theorem run_action_list_kwargs_merge_amended_witness :
    dget (storeGet (mergeKwargs [[("x", "1")]]
        { kind := ActionKind.create, mapName := "m", container := "c",
          kwargsRef := some 0 } (some [("x", "2")])).1
      (mergeKwargs [[("x", "1")]]
        { kind := ActionKind.create, mapName := "m", container := "c",
          kwargsRef := some 0 } (some [("x", "2")])).2) "x" = some "2"
      ∧ (runStep quietEnv (fun _ => none) false [[("image", "i"), ("x", "1")]]
          { kind := ActionKind.create, mapName := "m", container := "c",
            kwargsRef := some 0 }).1 =
        storeSet [[("image", "i"), ("x", "1")]] 0
          (derase (storeGet [[("image", "i"), ("x", "1")]] 0) "image") :=
  ⟨run_action_list_kwargs_merge_amended.2.1 [[("x", "1")]]
      { kind := ActionKind.create, mapName := "m", container := "c",
        kwargsRef := some 0 } [("x", "2")] "x" "2" (by decide) rfl,
   (run_action_list_kwargs_merge_amended.2.2.2 quietEnv (fun _ => none) false
      [[("image", "i"), ("x", "1")]]
      { kind := ActionKind.create, mapName := "m", container := "c",
        kwargsRef := some 0 } 0 "i" (Or.inl rfl) (by decide) rfl rfl
      (by decide) rfl).1⟩

theorem run_cons_ok (env : ExecEnv) (kfun : ActionKind → Option Dict) (roe : Bool)
    (st : Store) (a : ExAction) (rest : List ExAction)
    (h : (runStep env kfun roe st a).2.2 = none) :
    run_action_list env kfun roe st (a :: rest) =
      ((run_action_list env kfun roe (runStep env kfun roe st a).1 rest).1,
       (runStep env kfun roe st a).2.1 ++
         (run_action_list env kfun roe (runStep env kfun roe st a).1 rest).2.1,
       (run_action_list env kfun roe (runStep env kfun roe st a).1 rest).2.2) := by
  simp only [run_action_list]
  rw [h]

theorem run_cons_err (env : ExecEnv) (kfun : ActionKind → Option Dict) (roe : Bool)
    (st : Store) (a : ExAction) (rest : List ExAction) (e : ExErr)
    (h : (runStep env kfun roe st a).2.2 = some e) :
    run_action_list env kfun roe st (a :: rest) =
      ((runStep env kfun roe st a).1, (runStep env kfun roe st a).2.1, some e) := by
  simp only [run_action_list]
  rw [h]

/-- Claim C3: for a stop or remove action, a 404 engine error is swallowed (no
error log, no raised exception) and the remaining actions still run; any other
engine error is logged and is re-raised, aborting the remaining actions,
exactly when raise_on_error is true, while with raise_on_error false the
remaining actions still run. -/
theorem run_action_list_stop_remove_error_policy :
    ∀ (env : ExecEnv) (kfun : ActionKind → Option Dict) (roe : Bool) (st : Store)
      (a : ExAction) (rest : List ExAction),
      (a.kind = ActionKind.stop ∨ a.kind = ActionKind.remove) →
      a.mapName ∈ env.knownMaps →
      ((errCodeOf env a = some 404 →
          (runStep env kfun roe st a).2.2 = none
            ∧ (∀ c2 n, ExOp.logError c2 n ∉ (runStep env kfun roe st a).2.1)
            ∧ run_action_list env kfun roe st (a :: rest) =
                ((run_action_list env kfun roe (runStep env kfun roe st a).1 rest).1,
                 (runStep env kfun roe st a).2.1 ++
                   (run_action_list env kfun roe (runStep env kfun roe st a).1 rest).2.1,
                 (run_action_list env kfun roe (runStep env kfun roe st a).1 rest).2.2))
        ∧ (∀ code, errCodeOf env a = some code → ¬ code = 404 →
            ExOp.logError a.container code ∈ (runStep env kfun roe st a).2.1
              ∧ (roe = true →
                  run_action_list env kfun roe st (a :: rest) =
                    ((runStep env kfun roe st a).1,
                     (runStep env kfun roe st a).2.1, some (ExErr.apiError code)))
              ∧ (roe = false →
                  (runStep env kfun roe st a).2.2 = none
                    ∧ run_action_list env kfun roe st (a :: rest) =
                        ((run_action_list env kfun roe
                            (runStep env kfun roe st a).1 rest).1,
                         (runStep env kfun roe st a).2.1 ++
                           (run_action_list env kfun roe
                              (runStep env kfun roe st a).1 rest).2.1,
                         (run_action_list env kfun roe
                            (runStep env kfun roe st a).1 rest).2.2)))) := by
  intro env kfun roe st a rest hk hm
  obtain ⟨k, mn, c, kr⟩ := a
  constructor
  · intro h404
    rcases hk with hk | hk <;> subst hk
    · have hc : env.stopCode c = some 404 := h404
      refine ⟨by simp [runStep, hm, hc], ?_, ?_⟩
      · intro c2 n
        simp [runStep, hm, hc]
      · exact run_cons_ok env kfun roe st (ExAction.mk ActionKind.stop mn c kr)
          rest (by simp [runStep, hm, hc])
    · have hc : env.removeCode c = some 404 := h404
      refine ⟨by simp [runStep, hm, hc], ?_, ?_⟩
      · intro c2 n
        simp [runStep, hm, hc]
      · exact run_cons_ok env kfun roe st (ExAction.mk ActionKind.remove mn c kr)
          rest (by simp [runStep, hm, hc])
  · intro code hcode hne
    rcases hk with hk | hk <;> subst hk
    · have hc : env.stopCode c = some code := hcode
      refine ⟨by simp [runStep, hm, hc, hne], ?_, ?_⟩
      · intro hroe
        subst hroe
        exact run_cons_err env kfun true st (ExAction.mk ActionKind.stop mn c kr)
          rest (ExErr.apiError code) (by simp [runStep, hm, hc, hne])
      · intro hroe
        subst hroe
        refine ⟨by simp [runStep, hm, hc, hne], ?_⟩
        exact run_cons_ok env kfun false st (ExAction.mk ActionKind.stop mn c kr)
          rest (by simp [runStep, hm, hc, hne])
    · have hc : env.removeCode c = some code := hcode
      refine ⟨by simp [runStep, hm, hc, hne], ?_, ?_⟩
      · intro hroe
        subst hroe
        exact run_cons_err env kfun true st (ExAction.mk ActionKind.remove mn c kr)
          rest (ExErr.apiError code) (by simp [runStep, hm, hc, hne])
      · intro hroe
        subst hroe
        refine ⟨by simp [runStep, hm, hc, hne], ?_⟩
        exact run_cons_ok env kfun false st (ExAction.mk ActionKind.remove mn c kr)
          rest (by simp [runStep, hm, hc, hne])

/-- Witness for C3 at concrete inputs: a 404 on stop raises nothing, a 500 on
stop with raise_on_error aborts with the re-raised error. -/
theorem run_action_list_stop_remove_error_policy_witness :
    (runStep
        { knownMaps := ["m"], stopCode := fun _ => some 404,
          removeCode := fun _ => none }
        (fun _ => none) false []
        { kind := ActionKind.stop, mapName := "m", container := "gone",
          kwargsRef := none }).2.2 = none
      ∧ run_action_list
          { knownMaps := ["m"], stopCode := fun _ => some 500,
            removeCode := fun _ => none }
          (fun _ => none) true []
          ({ kind := ActionKind.stop, mapName := "m", container := "bad",
             kwargsRef := none } ::
            [{ kind := ActionKind.start, mapName := "m", container := "later",
               kwargsRef := none }]) =
        ((runStep
            { knownMaps := ["m"], stopCode := fun _ => some 500,
              removeCode := fun _ => none }
            (fun _ => none) true []
            { kind := ActionKind.stop, mapName := "m", container := "bad",
              kwargsRef := none }).1,
         (runStep
            { knownMaps := ["m"], stopCode := fun _ => some 500,
              removeCode := fun _ => none }
            (fun _ => none) true []
            { kind := ActionKind.stop, mapName := "m", container := "bad",
              kwargsRef := none }).2.1,
         some (ExErr.apiError 500)) :=
  ⟨((run_action_list_stop_remove_error_policy
        { knownMaps := ["m"], stopCode := fun _ => some 404,
          removeCode := fun _ => none }
        (fun _ => none) false []
        { kind := ActionKind.stop, mapName := "m", container := "gone",
          kwargsRef := none } [] (Or.inl rfl) (by decide)).1 rfl).1,
   (((run_action_list_stop_remove_error_policy
        { knownMaps := ["m"], stopCode := fun _ => some 500,
          removeCode := fun _ => none }
        (fun _ => none) true []
        { kind := ActionKind.stop, mapName := "m", container := "bad",
          kwargsRef := none }
        [{ kind := ActionKind.start, mapName := "m", container := "later",
           kwargsRef := none }] (Or.inl rfl) (by decide)).2 500 rfl
      (by decide)).2.1 rfl)⟩

theorem check_image_shape (mi : List (List Char)) (img : List Char) :
    _check_image mi img = (false, []) ∨
      ∃ a b, _check_image mi img = (true, [ImgOp.importImage a b]) := by
  unfold _check_image
  dsimp only
  split <;> split
  · exact Or.inl rfl
  · exact Or.inr ⟨_, _, rfl⟩
  · exact Or.inl rfl
  · exact Or.inr ⟨_, _, rfl⟩

theorem imports_props (mi : List (List Char)) (imgs : List (List Char)) :
    (∀ op ∈ (imgs.map (_check_image mi)).foldr (fun r acc => r.2 ++ acc) [],
        isImport op = true)
      ∧ ((imgs.map (_check_image mi)).foldr (fun r acc => r.2 ++ acc) []).any isImport
          = (imgs.map (_check_image mi)).any (fun r => r.1) := by
  induction imgs with
  | nil => exact ⟨by simp, rfl⟩
  | cons i is ih =>
    rcases check_image_shape mi i with h | ⟨a, b, h⟩
    · refine ⟨?_, ?_⟩
      · intro op hop
        refine ih.1 op ?_
        simpa [h] using hop
      · simp [h, ih.2]
    · refine ⟨?_, ?_⟩
      · intro op hop
        have hop2 : op = ImgOp.importImage a b ∨
            op ∈ List.foldr (fun r acc => r.2 ++ acc) []
              (List.map (_check_image mi) is) := by
          simpa [h] using hop
        rcases hop2 with rfl | hop2
        · rfl
        · exact ih.1 op hop2
      · simp [h, isImport]

theorem countP_forced_zero (l : List ImgOp) (h : ∀ op ∈ l, isImport op = true) :
    List.countP isForcedQ l = 0 := by
  induction l with
  | nil => rfl
  | cons op ops ih =>
    have hop := h op (by simp)
    have hf : isForcedQ op = false := by
      cases op with
      | queryTags m2 f => simp [isImport] at hop
      | importImage a b => rfl
    rw [List.countP_cons, ih (fun o ho => h o (by simp [ho])), hf]
    simp

theorem get_image_tags_nonforced_trace (s : OrchState) (m : String)
    (t : List (List Char)) (s1 : OrchState) (tr : List ImgOp)
    (h : _get_image_tags s m false = some (t, s1, tr)) :
    ((tr = [] ∨ tr = [ImgOp.queryTags m false])
      ∧ List.countP isForcedQ tr = 0 ∧ tr.any isImport = false)
      ∧ s1.registry = s.registry := by
  have h2 : (match lookupS s.imageTags m with
      | some t0 => some (t0, s, ([] : List ImgOp))
      | none =>
        match _get_client s (some m) with
        | none => none
        | some cl =>
          some (cl.engineTags,
            { s with imageTags := setS s.imageTags m cl.engineTags },
            [ImgOp.queryTags m false])) = some (t, s1, tr) := h
  cases hc : lookupS s.imageTags m with
  | some t0 =>
    rw [hc] at h2
    simp only [Option.some.injEq, Prod.mk.injEq] at h2
    obtain ⟨_, hs, htr⟩ := h2
    rw [← htr]
    exact ⟨⟨Or.inl rfl, rfl, rfl⟩, by rw [← hs]⟩
  | none =>
    rw [hc] at h2
    cases hg : _get_client s (some m) with
    | none =>
      rw [hg] at h2
      simp at h2
    | some cl =>
      rw [hg] at h2
      simp only [Option.some.injEq, Prod.mk.injEq] at h2
      obtain ⟨_, hs, htr⟩ := h2
      rw [← htr]
      exact ⟨⟨Or.inr rfl, rfl, rfl⟩, by rw [← hs]⟩

theorem get_image_tags_forced (s : OrchState) (m : String) (cl : ImgClient)
    (h : _get_client s (some m) = some cl) :
    _get_image_tags s m true =
      some (cl.engineTags,
        { s with imageTags := setS s.imageTags m cl.engineTags },
        [ImgOp.queryTags m true]) := by
  unfold _get_image_tags
  rw [h]
  rfl

/-- Claim C7: in every `_ensure_images` call, the trace decomposes into a
forced-refresh-free part followed by exactly one forced cache refresh when
some import occurred in it and by nothing otherwise; so the cache is
force-refreshed at most once per call, exactly once after all the batch's
imports when an import happened, and never once per image. -/
theorem ensure_images_single_refresh :
    ∀ (s : OrchState) (m : String) (imgs : List (List Char)) (s2 : OrchState)
      (tr : List ImgOp),
      _ensure_images s m imgs = some (s2, tr) →
      ∃ pre, List.countP isForcedQ pre = 0 ∧
        tr = pre ++ (if pre.any isImport then [ImgOp.queryTags m true] else []) := by
  intro s m imgs s2 tr h
  unfold _ensure_images at h
  cases hg : _get_client s (some m) with
  | none =>
    rw [hg] at h
    simp at h
  | some cl =>
    rw [hg] at h
    cases ht : _get_image_tags s m false with
    | none =>
      rw [ht] at h
      simp at h
    | some trip =>
      obtain ⟨mi, s1, t1⟩ := trip
      rw [ht] at h
      have h2 : (if (List.map (_check_image mi) imgs).any (fun r => r.1) then
          match _get_image_tags s1 m true with
          | none => none
          | some (_, s3, t2) =>
            some (s3, t1 ++
              (List.map (_check_image mi) imgs).foldr
                (fun (r : Bool × List ImgOp) acc => r.2 ++ acc) []
              ++ t2)
          else
            some (s1, t1 ++
              (List.map (_check_image mi) imgs).foldr
                (fun (r : Bool × List ImgOp) acc => r.2 ++ acc) []))
          = some (s2, tr) := h
      have hprops := imports_props mi imgs
      have htr1 := get_image_tags_nonforced_trace s m mi s1 t1 ht
      have hg1 : _get_client s1 (some m) = some cl := by
        show lookupS s1.registry m = some cl
        rw [htr1.2]
        exact hg
      set imps : List ImgOp :=
        (List.map (_check_image mi) imgs).foldr
          (fun (r : Bool × List ImgOp) acc => r.2 ++ acc) [] with himps
      have hcount : List.countP isForcedQ (t1 ++ imps) = 0 := by
        rw [List.countP_append, htr1.1.2.1, countP_forced_zero imps hprops.1]
      by_cases hany : (List.map (_check_image mi) imgs).any (fun r => r.1) = true
      · rw [if_pos hany, get_image_tags_forced s1 m cl hg1] at h2
        have h3 : some
            ({ s1 with imageTags := setS s1.imageTags m cl.engineTags },
              t1 ++ imps ++ [ImgOp.queryTags m true]) = some (s2, tr) := h2
        simp only [Option.some.injEq, Prod.mk.injEq] at h3
        obtain ⟨_, htr⟩ := h3
        refine ⟨t1 ++ imps, hcount, ?_⟩
        have hany2 : (t1 ++ imps).any isImport = true := by
          rw [List.any_append, htr1.1.2.2, hprops.2, hany]
          rfl
        rw [← htr, hany2]
        simp [List.append_assoc]
      · rw [if_neg hany] at h2
        simp only [Option.some.injEq, Prod.mk.injEq] at h2
        obtain ⟨_, htr⟩ := h2
        refine ⟨t1 ++ imps, hcount, ?_⟩
        have hany2 : (t1 ++ imps).any isImport = false := by
          rw [List.any_append, htr1.1.2.2, hprops.2]
          simp only [Bool.not_eq_true] at hany
          rw [hany]
          rfl
        rw [← htr, hany2]
        simp

/-- Witness for C7 at a concrete input: one missing image leads to one import
followed by exactly one forced refresh. -/
theorem ensure_images_single_refresh_witness :
    ∃ pre, List.countP isForcedQ pre = 0 ∧
      [ImgOp.queryTags "m" false, ImgOp.importImage "b".toList latestTag,
       ImgOp.queryTags "m" true] =
        pre ++ (if pre.any isImport then [ImgOp.queryTags "m" true] else []) :=
  ensure_images_single_refresh
    { registry := [("m", { engineTags := ["a:latest".toList] })], imageTags := [],
      defaultMap := none }
    "m" ["b".toList]
    { registry := [("m", { engineTags := ["a:latest".toList] })],
      imageTags := [("m", ["a:latest".toList])], defaultMap := none }
    [ImgOp.queryTags "m" false, ImgOp.importImage "b".toList latestTag,
     ImgOp.queryTags "m" true]
    (by decide)

end DockerMap
